import Mathlib

/-!
Shallow embedding of the scox character-valuation engine
(`scox/value.py`, `scox/profile.py`, `scox/character.py`).

Modelling conventions, checked definition by definition against the source:

* Python `int` is modelled as `Int`; Python `int(x / 2.0)` on an integer `x`
  truncates toward zero, which is `Int.tdiv x 2` (the float quotient of an
  integer by 2 is exact for all magnitudes arising here, so no floating-point
  rounding is involved).
* `Attribute.get_real_rank` returns the float `full_rank / 2.0`; every use of
  it in the source immediately combines such halves and truncates with
  `int(...)`.  Those computations are carried out exactly over `Int` in
  half-units (scaled by 2), e.g. `int(a.real + b.real) = (aFull + bFull).tdiv 2`.
* Python `dict`s (insertion ordered, unique keys) are association lists
  `List (κ × α)`; assignment `d[k] = v` is `AList.insert` (overwrite in place
  or append), `d[k]` is `AList.lookup`, `k in d` is `AList.containsKey`.
* Exceptions are explicit: loaders return `state × Option PyErr` (the partial
  state mirrors the in-place mutation that an exception does not roll back),
  pure helpers that cannot raise return plain values.
* SVG sheet coordinates (presentation-only, never read by any rule in the
  engine) are omitted from the embedded records.
-/

namespace Scox

/-- Python exceptions that the embedded code can raise. -/
inductive PyErr where
  | keyError (msg : String)
  | attributeError (msg : String)
  | indexError (msg : String)
  | exception (msg : String)
  deriving Repr, DecidableEq

/-! ### Association lists standing for Python dicts -/

/-- Lookup of the value bound to a key (Python `d[k]`, `None`-free form). -/
def alookup {κ α : Type} [DecidableEq κ] (l : List (κ × α)) (k : κ) : Option α :=
  match l with
  | [] => none
  | (k', v) :: rest => if k' = k then some v else alookup rest k

/-- Membership test on keys (Python `k in d`). -/
def akeys {κ α : Type} [DecidableEq κ] (l : List (κ × α)) (k : κ) : Bool :=
  (alookup l k).isSome

/-- Pointwise update of the value stored at a key; keys are untouched.
Models mutating the object found at `d[k]` in place. -/
def amodify {κ α : Type} [DecidableEq κ] (l : List (κ × α)) (k : κ) (f : α → α) :
    List (κ × α) :=
  match l with
  | [] => []
  | (k', v) :: rest =>
      if k' = k then (k', f v) :: amodify rest k f else (k', v) :: amodify rest k f

/-- Dict assignment `d[k] = v`: overwrite in place if the key exists
(Python dicts keep the original position), else append. -/
def ainsert {κ α : Type} [DecidableEq κ] (l : List (κ × α)) (k : κ) (v : α) :
    List (κ × α) :=
  if akeys l k then amodify l k (fun _ => v) else l ++ [(k, v)]

/-! ### Value / Attribute / Skill / Power (scox/value.py) -/

/-- Value: `base_rank` plus accumulated `rank` (`value.py`, class `Value`). -/
structure Value where
  base_rank : Int
  rank : Int
  deriving Repr, DecidableEq

/-- Full rank of a `Value`: `rank + base_rank` (`Value.get_full_rank`). -/
def Value.full_rank (v : Value) : Int := v.rank + v.base_rank

/-- Unconditional rank increase (`Value.increase_rank`). -/
def Value.increase_rank (v : Value) (step : Int) : Value :=
  { v with rank := v.rank + step }

/-- Setter for `rank` (`Value.set_rank`). -/
def Value.set_rank (v : Value) (rank : Int) : Value :=
  { v with rank := rank }

/-- Setter for `base_rank` (`Value.set_base_rank`). -/
def Value.set_base_rank (v : Value) (rank : Int) : Value :=
  { v with base_rank := rank }

/-- Attribute: a named, possibly invariant value (`value.py`, class
`Attribute`). -/
structure Attribute where
  name : String
  base_rank : Int
  rank : Int
  invariant : Bool
  deriving Repr, DecidableEq

/-- Full rank of an attribute: `rank + base_rank`. -/
def Attribute.full_rank (a : Attribute) : Int := a.rank + a.base_rank

/-- Guarded rank increase (`Attribute.increase_rank`): no-op when invariant. -/
def Attribute.increase_rank (a : Attribute) (step : Int) : Attribute :=
  if a.invariant then a else { a with rank := a.rank + step }

/-- Unit increment (`Attribute.increment_rank`): no-op when invariant. -/
def Attribute.increment_rank (a : Attribute) : Attribute :=
  if a.invariant then a else { a with rank := a.rank + 1 }

/-- Unit decrement (`Attribute.decrement_rank`): only when `rank > 0` and not
invariant. -/
def Attribute.decrement_rank (a : Attribute) : Attribute :=
  if a.rank > 0 && !a.invariant then { a with rank := a.rank - 1 } else a

/-- Specialization sub-skill of a specific skill.  The source builds it as
`Skill('Spécialité', ..., governing_attribute=master.governing_attribute,
master_skill=master, acquired=master.acquired)`: it is never invariant, never
specific, never multiple, and shares its master's governing attribute, so only
its own ranks and `acquired` flag are recorded here; the master back-reference
is realised by defining the specialization's operations on the owning skill. -/
structure SpecSkill where
  base_rank : Int
  rank : Int
  acquired : Bool
  deriving Repr, DecidableEq

/-- Full rank of a specialization: `rank + base_rank`. -/
def SpecSkill.full_rank (sp : SpecSkill) : Int := sp.rank + sp.base_rank

/-- Skill (`value.py`, class `Skill`); a top-level skill, whose
`master_skill` is `None`. -/
structure Skill where
  name : String
  base_rank : Int
  rank : Int
  invariant : Bool
  acquired : Bool
  governing_attribute : Option Attribute
  varieties : Option (List String)
  specialization : Option SpecSkill
  deriving Repr, DecidableEq

/-- Full rank of a skill: `rank + base_rank`. -/
def Skill.full_rank (s : Skill) : Int := s.rank + s.base_rank

/-- Full rank of the specialization of a skill (0 when there is none). -/
def Skill.spec_full_rank (s : Skill) : Int :=
  match s.specialization with
  | some sp => sp.full_rank
  | none => 0

/-- Constructor `Skill.__init__`: base rank 0, rank 0; when `specific` a fresh
specialization with base rank 0, rank 0 and the same `acquired` flag. -/
def Skill.mk_skill (name : String) (governed : Option Attribute)
    (specific multiple invariant acquired : Bool) : Skill :=
  { name := name
    base_rank := 0
    rank := 0
    invariant := invariant
    acquired := acquired
    governing_attribute := governed
    varieties := if multiple then some [] else none
    specialization :=
      if specific then some { base_rank := 0, rank := 0, acquired := acquired }
      else none }

/-- Predicate `Skill.is_specific`. -/
def Skill.is_specific (s : Skill) : Bool := s.specialization.isSome

/-- Predicate `Skill.is_multiple`. -/
def Skill.is_multiple (s : Skill) : Bool := s.varieties.isSome

/-- Bulk rank increase on a skill: inherited unchanged from
`Attribute.increase_rank` (no specialization ceiling check). -/
def Skill.increase_rank (s : Skill) (step : Int) : Skill :=
  if s.invariant then s else { s with rank := s.rank + step }

/-- Unit increment (`Skill.increment_rank`): no-op when invariant, or when a
specialization exists whose full rank is not strictly above the skill's. -/
def Skill.increment_rank (s : Skill) : Skill :=
  if !s.invariant &&
      (s.specialization.isNone || decide (s.spec_full_rank > s.full_rank)) then
    { s with rank := s.rank + 1 }
  else s

/-- Unit decrement (`Skill.decrement_rank`) for a top-level skill: its
`master_skill` is `None`, so the guard reduces to `rank > 0` and not
invariant. -/
def Skill.decrement_rank (s : Skill) : Skill :=
  if s.rank > 0 && !s.invariant then { s with rank := s.rank - 1 } else s

/-- Bulk rank increase on the specialization of a skill
(`skill.get_specialization().increase_rank(step)`): the specialization is
never invariant, so the inherited guard always passes. -/
def Skill.spec_increase_rank (s : Skill) (step : Int) : Skill :=
  match s.specialization with
  | some sp => { s with specialization := some { sp with rank := sp.rank + step } }
  | none => s

/-- Unit increment on the specialization (`Skill.increment_rank` called on the
specialization object): it is not invariant and has itself no specialization,
so the rank always increases. -/
def Skill.spec_increment_rank (s : Skill) : Skill :=
  match s.specialization with
  | some sp => { s with specialization := some { sp with rank := sp.rank + 1 } }
  | none => s

/-- Unit decrement on the specialization (`Skill.decrement_rank` called on the
specialization object): its `master_skill` is the owning skill, so the rank
decreases only while `rank > 0` and the master's full rank is strictly below
its own. -/
def Skill.spec_decrement_rank (s : Skill) : Skill :=
  match s.specialization with
  | some sp =>
      if sp.rank > 0 && decide (s.full_rank < sp.full_rank) then
        { s with specialization := some { sp with rank := sp.rank - 1 } }
      else s
  | none => s

/-- Truncated halving `Int.tdiv x 2`, i.e. Python `int(x / 2)` (toward zero). -/
def half_trunc (x : Int) : Int := Int.tdiv x 2

/-- Base-rank derivation (`Skill.compute_base_rank`): from the governing
attribute's full rank halved when one is present (regardless of the invariant
flag), else the flat default 2 for non-invariant skills, else unchanged; then
the recomputation cascades into an existing specialization, which shares the
master's governing attribute and is never invariant. -/
def Skill.compute_base_rank (s : Skill) : Skill :=
  let b :=
    match s.governing_attribute with
    | some g => half_trunc g.full_rank
    | none => if !s.invariant then 2 else s.base_rank
  let sp' :=
    match s.specialization with
    | some sp =>
        some { sp with base_rank :=
          match s.governing_attribute with
          | some g => half_trunc g.full_rank
          | none => 2 }
    | none => none
  { s with base_rank := b, specialization := sp' }

/-- Python `str.rstrip('s')`: drop trailing `'s'` characters. -/
def rstripS (s : String) : String :=
  String.mk ((s.data.reverse.dropWhile (fun c => c = 's')).reverse)

/-- Variety registration (`Skill.add_variety`) in the only context the engine
calls it (a multiple skill, so `varieties` is a list): a non-invariant skill
that already has a variety accepts no further one; a new name is appended; a
duplicate name is replaced by `parent.rstrip('s') + '_' + str(len + 1)`. -/
def Skill.add_variety (s : Skill) (variety parent : String) : Skill :=
  match s.varieties with
  | none => s
  | some vs =>
      if !s.invariant && vs.length ≥ 1 then s
      else if !(vs.contains variety) then { s with varieties := some (vs ++ [variety]) }
      else
        { s with
          varieties := some (vs ++ [rstripS parent ++ "_" ++ toString (vs.length + 1)]) }

/-! ### Rank-mutation sequences (claims C1 and C8) -/

/-- Interactive rank mutations on a specific skill and its specialization:
the four unit operations named by the specialization invariant. -/
inductive RankOp where
  | master_inc
  | master_dec
  | spe_inc
  | spe_dec
  deriving Repr, DecidableEq

/-- Apply one interactive mutation to a specific skill. -/
def applyRankOp (s : Skill) (op : RankOp) : Skill :=
  match op with
  | .master_inc => s.increment_rank
  | .master_dec => s.decrement_rank
  | .spe_inc => s.spec_increment_rank
  | .spe_dec => s.spec_decrement_rank

/-- Run a sequence of interactive mutations. -/
def runRankOps (s : Skill) (ops : List RankOp) : Skill :=
  ops.foldl applyRankOp s

/-- Freshly constructed specific skill (rank 0, base rank 0 on both levels),
with an arbitrary invariant flag. -/
def freshSpecificSkill (invariant : Bool) : Skill :=
  Skill.mk_skill "S" none true false invariant false

/-! ### Powers and the power table (scox/value.py, scox/profile.py) -/

/-- Power (`value.py`, class `Power`): a named attribute with an activation
cost. -/
structure Power where
  name : String
  cost : String
  base_rank : Int
  rank : Int
  invariant : Bool
  deriving Repr, DecidableEq

/-- Candidate-power descriptor as parsed inside `generate_power_table`: the
three strings `[flag, rank, cost]` of a table cell, with the numeric field
already through `int(...)`.  The flag is kept as the raw string the source
compares against `'True'`. -/
structure PowerDesc where
  flag : String
  rank : Int
  cost : String
  deriving Repr, DecidableEq

/-- One face of the power table: the candidate powers (name → descriptor, in
cell order) and the pp award. -/
abbrev Face : Type := List (String × PowerDesc) × Int

/-- Candidate powers of a face. -/
def Face.cands (f : Face) : List (String × PowerDesc) := f.1

/-- Resource-pool award of a face. -/
def Face.pp (f : Face) : Int := f.2

/-- Row of a power-table section as it stands after the CSV field parsing of
`generate_power_table` (string splitting and `int(...)` conversions): the die
faces the row covers, the candidate powers, the base pp award, and the
per-superior override map. -/
structure GenRow where
  val : List Int
  powers : List (String × PowerDesc)
  pp : Int
  bonus : List (String × Int)
  deriving Repr, DecidableEq

/-- Python `str.upper()` over the ASCII nature strings. -/
def pyUpper (s : String) : String :=
  String.mk (s.data.map Char.toUpper)

/-- Python `str.title()` restricted to the ASCII range that superior names use:
the first letter of every alphabetic run is uppercased, the rest lowercased. -/
def pyTitle (s : String) : String :=
  String.mk ((s.data.foldl
    (fun (acc : List Char × Bool) c =>
      if c.isAlpha then
        ((if acc.2 then c.toLower else c.toUpper) :: acc.1, true)
      else (c :: acc.1, false))
    ([], false)).1.reverse)

/-- Loop body of `generate_power_table`: visit the rows in order, building the
face table; every row dereferences `self.superior.title()` to decide the pp
override, so the first row raises an `AttributeError` when `superior` is still
`None`.  The partially built table is returned alongside the error, mirroring
`self.power_table = {}` being assigned before the loop. -/
def genTableGo (superior : Option String) (acc : List (Int × Face)) :
    List GenRow → List (Int × Face) × Option PyErr
  | [] => (acc, none)
  | row :: rest =>
      match superior with
      | none =>
          (acc, some (.attributeError "NoneType object has no attribute title"))
      | some sup =>
          let pp : Int :=
            match alookup row.bonus (pyTitle sup) with
            | some b => b
            | none => row.pp
          let acc' := row.val.foldl (fun t i => ainsert t i (row.powers, pp)) acc
          genTableGo superior acc' rest

/-- Power-table construction (`Profile.generate_power_table`), over rows whose
CSV fields are already parsed. -/
def generate_power_table (superior : Option String) (rows : List GenRow) :
    List (Int × Face) × Option PyErr :=
  genTableGo superior [] rows

/-- Power object built for a drawn candidate (`draw_from_table`, commit
branch): flat candidates (`p[0] == 'True'`) become invariant powers, ranked
candidates get `base_rank = 2 * int(p[1])`. -/
def mkDrawnPower (name : String) (d : PowerDesc) : Power :=
  if d.flag = "True" then
    { name := name, cost := d.cost, base_rank := 0, rank := 0, invariant := true }
  else
    { name := name, cost := d.cost, base_rank := 2 * d.rank, rank := 0,
      invariant := false }

/-! ### Profile state (scox/profile.py) -/

/-- Profile: the mutable state of `Profile.__init__` (ordered maps, nature,
superior, optional power table). -/
structure Profile where
  attributes : List (String × Attribute)
  values : List (String × Value)
  powers : List (String × Power)
  primary_skills : List (String × Skill)
  secondary_skills : List (String × Skill)
  exotic_skills : List (String × Skill)
  nature : String
  superior : Option String
  power_table : Option (List (Int × Face))
  deriving Repr, DecidableEq

/-- Collision test of `draw_from_table`: some candidate of the face already
sits in the profile's power map. -/
def faceCollides (p : Profile) (f : Face) : Bool :=
  f.cands.any (fun kd => akeys p.powers kd.1)

/-- Commit branch of `draw_from_table`: the PP side value increases by the
face's pp award, then every candidate power is inserted into the power map. -/
def commitFace (p : Profile) (f : Face) : Profile :=
  { p with
    values := amodify p.values "PP" (fun v => v.increase_rank f.pp)
    powers := f.cands.foldl (fun ps kd => ainsert ps kd.1 (mkDrawnPower kd.1 kd.2)) p.powers }

/-- While-loop of `draw_from_table`, with the successive outcomes of
`random.choice(keys)` supplied as an index oracle `rolls` (the `k`-th loop
iteration samples the key at position `rolls k % keys.length`): a sampled face
whose candidate set collides ends the whole loop at once with no further
change and no error; otherwise the face is committed and the success counter
advances.  `random.choice` on an empty key list raises `IndexError`; a missing
`PP` side value would raise `KeyError` before the commit mutates anything. -/
def drawLoop (entries : List (Int × Face)) (rolls : Nat → Nat) (k : Nat)
    (p : Profile) : Nat → Profile × Option PyErr
  | 0 => (p, none)
  | n + 1 =>
      match entries.get? (rolls k % entries.length) with
      | none => (p, some (.indexError "empty table"))
      | some e =>
          if faceCollides p e.2 then (p, none)
          else
            match alookup p.values "PP" with
            | none => (p, some (.keyError "PP"))
            | some _ => drawLoop entries rolls (k + 1) (commitFace p e.2) n

/-- Random power draw (`Profile.draw_from_table`): raises when no power table
has been generated, else runs the draw loop for `iterations` successes. -/
def draw_from_table (p : Profile) (rolls : Nat → Nat) (iterations : Nat) :
    Profile × Option PyErr :=
  match p.power_table with
  | none =>
      (p, some (.exception
        "Power table does not exist; please load an archetype profile first."))
  | some entries => drawLoop entries rolls 0 p iterations

/-- Rank of the PP side value of a profile (the pool mutated by power draws),
read as `None` when the side value is absent. -/
def ppRank (p : Profile) : Option Int :=
  (alookup p.values "PP").map Value.rank

/-! ### Archive loading (scox/profile.py, the six `load_*` section mergers) -/

/-- Row of an attribute/skill/side-value section, after the CSV parsing:
`{Name, Rank}` with the rank already through `int(...)`. -/
structure Row where
  name : String
  rank : Int
  deriving Repr, DecidableEq

/-- Row of the powers section: `{Name, Rank, Cost, Invariant}`; the invariant
flag is kept as the raw string the source compares against `'True'`. -/
structure PowerRow where
  name : String
  rank : Int
  cost : String
  invariant : String
  deriving Repr, DecidableEq

/-- Python `str.split(sep)` for a one-character separator: splits on every
occurrence, keeping empty pieces (`''.split('_') == ['']`). -/
def pySplitChar (sep : Char) (s : String) : List String :=
  (s.data.foldr
    (fun c acc => if c = sep then [] :: acc else (c :: acc.headD []) :: acc.tail)
    [[]]).map String.mk

/-- Python `parts[i]` on a split result, in contexts where the index is in
range (the loaders only read `parts[1]` after establishing that the full name
is absent while `parts[0]` is present, which forces a separator). -/
def pyAt (l : List String) (i : Nat) : String := l.getD i ""

/-- Sequential merge of a section's rows: an exception at a row stops the
merge there, keeping everything already merged (the Python loop mutates the
profile in place, so a raised error performs no rollback). -/
def runRows {St R : Type} (step : St → R → Except PyErr St) :
    St → List R → St × Option PyErr
  | st, [] => (st, none)
  | st, r :: rest =>
      match step st r with
      | .error e => (st, some e)
      | .ok st' => runRows step st' rest

/-- Row merge of `load_attributes`: the named attribute must already exist,
and its rank increases by the row's rank. -/
def attrStep (st : List (String × Attribute)) (r : Row) :
    Except PyErr (List (String × Attribute)) :=
  if akeys st r.name then
    .ok (amodify st r.name (fun a => a.increase_rank r.rank))
  else .error (.keyError ("Attribute " ++ r.name ++ " not found."))

/-- Section merge `Profile.load_attributes`. -/
def load_attributes (p : Profile) (rows : List Row) : Profile × Option PyErr :=
  let (m, e) := runRows attrStep p.attributes rows
  ({ p with attributes := m }, e)

/-- Row merge of `load_side_values`: the named side value must already exist,
and its rank is set (not increased) to the row's rank. -/
def valueStep (st : List (String × Value)) (r : Row) :
    Except PyErr (List (String × Value)) :=
  if akeys st r.name then
    .ok (amodify st r.name (fun v => v.set_rank r.rank))
  else .error (.keyError ("Value " ++ r.name ++ " not found."))

/-- Section merge `Profile.load_side_values`. -/
def load_side_values (p : Profile) (rows : List Row) : Profile × Option PyErr :=
  let (m, e) := runRows valueStep p.values rows
  ({ p with values := m }, e)

/-- Row merge of `load_primary_skills`: an existing name gains rank; a name
`<skill>_spe` whose base exists targets the base's specialization through
`get_specialization`, which returns `None` (with a warning) for a non-specific
skill, so the subsequent `increase_rank` call raises an `AttributeError`; any
other name is a fatal `KeyError`.  The `split('_')[1]` access cannot raise
here: it is reached only when the full name is absent while its base is
present, which forces an underscore in the name. -/
def primStep (st : List (String × Skill)) (r : Row) :
    Except PyErr (List (String × Skill)) :=
  if akeys st r.name then
    .ok (amodify st r.name (fun s => s.increase_rank r.rank))
  else
    let parts := pySplitChar '_' r.name
    let base := pyAt parts 0
    match alookup st base with
    | some sk =>
        if pyAt parts 1 = "spe" then
          match sk.specialization with
          | some _ => .ok (amodify st base (fun s => s.spec_increase_rank r.rank))
          | none =>
              .error (.attributeError
                "NoneType object has no attribute increase_rank")
        else .error (.keyError ("Skill " ++ r.name ++ " not found."))
    | none => .error (.keyError ("Skill " ++ r.name ++ " not found."))

/-- Section merge `Profile.load_primary_skills`. -/
def load_primary_skills (p : Profile) (rows : List Row) :
    Profile × Option PyErr :=
  let (m, e) := runRows primStep p.primary_skills rows
  ({ p with primary_skills := m }, e)

/-- Row merge of `load_secondary_skills` (never raises; collects warnings):
an existing name gains rank; a name whose base exists targets the base's
specialization if the base is specific, or registers the suffix as a variety
and gains rank if the base is multiple, or is ignored with a warning; any
other name creates a fresh acquired skill that then gains the row's rank. -/
def secStep (st : List (String × Skill) × List String) (r : Row) :
    List (String × Skill) × List String :=
  let (m, ws) := st
  if akeys m r.name then
    (amodify m r.name (fun s => s.increase_rank r.rank), ws)
  else
    let parts := pySplitChar '_' r.name
    let base := pyAt parts 0
    match alookup m base with
    | some sk =>
        if sk.is_specific then
          (amodify m base (fun s => s.spec_increase_rank r.rank), ws)
        else if sk.is_multiple then
          (amodify m base
            (fun s => (s.add_variety (pyAt parts 1) base).increase_rank r.rank), ws)
        else
          (m, ws ++ ["Non specific nor multiple skill; inputspecialization or variety is ignored."])
    | none =>
        let m1 := ainsert m r.name (Skill.mk_skill r.name none false false false true)
        (amodify m1 r.name (fun s => s.increase_rank r.rank), ws)

/-- Section merge `Profile.load_secondary_skills`: the merged map and the
non-fatal warnings emitted along the way. -/
def load_secondary_skills (p : Profile) (rows : List Row) :
    Profile × List String :=
  let (m, ws) := rows.foldl secStep (p.secondary_skills, [])
  ({ p with secondary_skills := m }, ws)

/-- Row merge of `load_exotic_skills`: the named skill must already exist,
and its rank increases by the row's rank. -/
def exoticStep (st : List (String × Skill)) (r : Row) :
    Except PyErr (List (String × Skill)) :=
  if akeys st r.name then
    .ok (amodify st r.name (fun s => s.increase_rank r.rank))
  else .error (.keyError ("Skill " ++ r.name ++ " not found."))

/-- Section merge `Profile.load_exotic_skills`. -/
def load_exotic_skills (p : Profile) (rows : List Row) :
    Profile × Option PyErr :=
  let (m, e) := runRows exoticStep p.exotic_skills rows
  ({ p with exotic_skills := m }, e)

/-- Power object built for a loaded powers row: invariant when the flag
string is `'True'`, else with `base_rank = 2 * Rank`. -/
def mkLoadedPower (r : PowerRow) : Power :=
  if r.invariant = "True" then
    { name := r.name, cost := r.cost, base_rank := 0, rank := 0,
      invariant := true }
  else
    { name := r.name, cost := r.cost, base_rank := 2 * r.rank, rank := 0,
      invariant := false }

/-- Row merge of `load_powers`: a row redefining an existing power name is a
fatal `KeyError`; otherwise a new power is appended. -/
def powerStep (st : List (String × Power)) (r : PowerRow) :
    Except PyErr (List (String × Power)) :=
  if akeys st r.name then
    .error (.keyError ("Power " ++ r.name ++ " already exists."))
  else
    .ok (ainsert st r.name (mkLoadedPower r))

/-- Section merge `Profile.load_powers`. -/
def load_powers (p : Profile) (rows : List PowerRow) : Profile × Option PyErr :=
  let (m, e) := runRows powerStep p.powers rows
  ({ p with powers := m }, e)

/-- Profile archive with its six tabular sections already read and parsed,
the nature-specific power-table section, and the archive's file name. -/
structure Archive where
  name : String
  attributes : List Row
  values : List Row
  primary_skills : List Row
  secondary_skills : List Row
  exotic_skills : List Row
  powers : List PowerRow
  table : List GenRow
  deriving Repr, DecidableEq

/-- Superior name recorded by a non-archetype load:
`profile.split(os.path.sep)[-1].split('.')[0].title()` with POSIX `/`. -/
def profileBaseName (file : String) : String :=
  pyTitle (pyAt (pySplitChar '.' ((pySplitChar '/' file).getLastD "")) 0)

/-- Archive merge `Profile.load_profile`: the six sections in order, each
exception propagating at once (everything already merged stays applied); an
archetype load then builds the nature-specific power table, while any other
load records the archive's base name as the profile's superior. -/
def load_profile (p : Profile) (a : Archive) (archetype : Bool) :
    Profile × Option PyErr :=
  let (p1, e1) := load_attributes p a.attributes
  match e1 with
  | some e => (p1, some e)
  | none =>
  let (p2, e2) := load_side_values p1 a.values
  match e2 with
  | some e => (p2, some e)
  | none =>
  let (p3, e3) := load_primary_skills p2 a.primary_skills
  match e3 with
  | some e => (p3, some e)
  | none =>
  let (p4, _ws) := load_secondary_skills p3 a.secondary_skills
  let (p5, e5) := load_exotic_skills p4 a.exotic_skills
  match e5 with
  | some e => (p5, some e)
  | none =>
  let (p6, e6) := load_powers p5 a.powers
  match e6 with
  | some e => (p6, some e)
  | none =>
    if archetype && pyUpper p6.nature = "DEMON" then
      let (t, e) := generate_power_table p6.superior a.table
      ({ p6 with power_table := some t }, e)
    else if archetype && pyUpper p6.nature = "ANGEL" then
      let (t, e) := generate_power_table p6.superior a.table
      ({ p6 with power_table := some t }, e)
    else
      ({ p6 with superior := some (profileBaseName a.name) }, none)

/-! ### Derived-value recomputation (scox/character.py, `update_values`) -/

/-- Recomputation `Character.update_values`: every primary, secondary and
exotic skill recomputes its base rank, then the six side values are derived
from the attributes.  `get_real_rank` returns the float `full_rank / 2.0`,
exact on these integers, so the truncated combinations are carried out over
`Int` in half-units: `int(a.real + b.real) = half_trunc (aF + bF)` and, with
`wound2` denoting `2 * wound = Force full rank + (4 if Demon, 6 if Angel)`,
`int(wound) = half_trunc wound2`, `int(2*wound) = wound2`,
`int(3*wound) = half_trunc (3*wound2)`, `int(4*wound) = 2*wound2`.
Missing `Force`/`Volonte`/`Foi` attributes would raise a `KeyError`
(`none` here); a `Character` always owns them. -/
def update_values (p : Profile) : Option Profile :=
  let prim := p.primary_skills.map (fun kv => (kv.1, kv.2.compute_base_rank))
  let sec := p.secondary_skills.map (fun kv => (kv.1, kv.2.compute_base_rank))
  let exo := p.exotic_skills.map (fun kv => (kv.1, kv.2.compute_base_rank))
  match alookup p.attributes "Force", alookup p.attributes "Volonte",
      alookup p.attributes "Foi" with
  | some force, some vol, some foi =>
      let v1 := amodify p.values "PF"
        (fun v => v.set_base_rank (half_trunc (force.full_rank + vol.full_rank)))
      let v2 := amodify v1 "PP"
        (fun v => v.set_base_rank (half_trunc (foi.full_rank + vol.full_rank)))
      let wound2 : Int := force.full_rank +
        (if p.nature = "Demon" then 4 else if p.nature = "Angel" then 6 else 0)
      let v3 := amodify v2 "BL" (fun v => v.set_base_rank (half_trunc wound2))
      let v4 := amodify v3 "BG" (fun v => v.set_base_rank wound2)
      let v5 := amodify v4 "BF" (fun v => v.set_base_rank (half_trunc (3 * wound2)))
      let v6 := amodify v5 "MS" (fun v => v.set_base_rank (2 * wound2))
      some { p with primary_skills := prim, secondary_skills := sec,
                    exotic_skills := exo, values := v6 }
  | _, _, _ => none

/-! ### Rank-mutation sequences over attributes and skills (claim C8) -/

/-- Rank mutations available on an attribute: the unit operations and the
administrative bulk increase used by profile merges. -/
inductive AttrOp where
  | inc
  | dec
  | incBy (step : Int)
  deriving Repr, DecidableEq

/-- Apply one mutation to an attribute. -/
def applyAttrOp (a : Attribute) (op : AttrOp) : Attribute :=
  match op with
  | .inc => a.increment_rank
  | .dec => a.decrement_rank
  | .incBy step => a.increase_rank step

/-- Run a sequence of attribute mutations. -/
def runAttrOps (a : Attribute) (ops : List AttrOp) : Attribute :=
  ops.foldl applyAttrOp a

/-- Rank mutations available on a skill and its specialization: the four unit
operations together with the bulk increases used by profile merges. -/
inductive SkillOp where
  | m_inc
  | m_dec
  | m_incBy (step : Int)
  | s_inc
  | s_dec
  | s_incBy (step : Int)
  deriving Repr, DecidableEq

/-- Apply one mutation to a skill. -/
def applySkillOp (s : Skill) (op : SkillOp) : Skill :=
  match op with
  | .m_inc => s.increment_rank
  | .m_dec => s.decrement_rank
  | .m_incBy step => s.increase_rank step
  | .s_inc => s.spec_increment_rank
  | .s_dec => s.spec_decrement_rank
  | .s_incBy step => s.spec_increase_rank step

/-- Run a sequence of skill mutations. -/
def runSkillOps (s : Skill) (ops : List SkillOp) : Skill :=
  ops.foldl applySkillOp s

/-- Rank of the specialization of a skill (0 when there is none). -/
def Skill.spec_rank (s : Skill) : Int :=
  match s.specialization with
  | some sp => sp.rank
  | none => 0

/-! ### Concrete instances used to evaluate the model on closed inputs -/

/-- Empty Demon profile, the base of the concrete test profiles. -/
def baseProfile : Profile :=
  { attributes := []
    values := []
    powers := []
    primary_skills := []
    secondary_skills := []
    exotic_skills := []
    nature := "Demon"
    superior := none
    power_table := none }

/-- Flat-power descriptor used by the draw tests. -/
def descFlat : PowerDesc := { flag := "True", rank := 0, cost := "2 PP" }

/-- Ranked-power descriptor used by the draw tests. -/
def descRanked : PowerDesc := { flag := "False", rank := 1, cost := "1 PP/min" }

/-- Profile owning the power `X`, whose single-face power table offers `X`
again: every draw collides. -/
def profileCollide : Profile :=
  { baseProfile with
    values := [("PP", { base_rank := 0, rank := 0 })]
    powers := [("X", { name := "X", cost := "2 PP", base_rank := 0, rank := 0,
                       invariant := true })]
    power_table := some [(1, ([("X", descFlat)], 3))] }

/-- Profile with an empty power map and a single-face table awarding 1 pp. -/
def profileDraw : Profile :=
  { baseProfile with
    values := [("PP", { base_rank := 0, rank := 0 })]
    power_table := some [(1, ([("X", descFlat), ("Y", descRanked)], 1))] }

/-- Table row whose pp award is negative. -/
def rowNegativePP : GenRow :=
  { val := [1], powers := [("X", descRanked)], pp := -1, bonus := [] }

/-- Profile whose power table was generated from the negative-pp row. -/
def profileNegativePP : Profile :=
  { baseProfile with
    values := [("PP", { base_rank := 0, rank := 0 })]
    power_table := some (generate_power_table (some "Baal") [rowNegativePP]).1 }

/-- Governed invariant skill: the catalogue never builds one, but the
constructor accepts the combination. -/
def invariantGovernedSkill : Skill :=
  { name := "Langues"
    base_rank := 0
    rank := 0
    invariant := true
    acquired := true
    governing_attribute := some { name := "Force", base_rank := 4, rank := 0,
                                  invariant := false }
    varieties := none
    specialization := none }

/-- Governed non-invariant specific skill with an odd governing full rank. -/
def governedSkill : Skill :=
  { name := "Combat"
    base_rank := 0
    rank := 0
    invariant := false
    acquired := false
    governing_attribute := some { name := "Agilite", base_rank := 4, rank := 1,
                                  invariant := false }
    varieties := none
    specialization := some { base_rank := 0, rank := 0, acquired := false } }

/-- Profile for the update-values scenario: Demon with Force real rank 3. -/
def profileDemonForce3 : Profile :=
  { baseProfile with
    attributes :=
      [("Force", { name := "Force", base_rank := 6, rank := 0, invariant := false }),
       ("Volonte", { name := "Volonté", base_rank := 4, rank := 0, invariant := false }),
       ("Foi", { name := "Foi", base_rank := 4, rank := 0, invariant := false })]
    values :=
      [("PF", { base_rank := 0, rank := 0 }),
       ("PP", { base_rank := 0, rank := 0 }),
       ("BL", { base_rank := 0, rank := 0 }),
       ("BG", { base_rank := 0, rank := 0 }),
       ("BF", { base_rank := 0, rank := 0 }),
       ("MS", { base_rank := 0, rank := 0 })] }

/-- Recomputed scenario profile (the successful result of `update_values`). -/
def profileDemonForce3Updated : Profile :=
  (update_values profileDemonForce3).getD profileDemonForce3

/-- Multiple skill that already holds one variety. -/
def hobbyWithVariety : Skill :=
  { name := "Hobby"
    base_rank := 0
    rank := 0
    invariant := false
    acquired := true
    governing_attribute := none
    varieties := some ["Chasse"]
    specialization := none }

/-- Profile whose secondary catalogue holds `Hobby` with one variety. -/
def profileHobbyOne : Profile :=
  { baseProfile with secondary_skills := [("Hobby", hobbyWithVariety)] }

/-- Multiple skill with no variety yet (the catalogue's fresh `Hobby`). -/
def hobbyFresh : Skill := Skill.mk_skill "Hobby" none false true false true

/-- Profile whose secondary catalogue holds the fresh `Hobby`. -/
def profileHobbyFresh : Profile :=
  { baseProfile with secondary_skills := [("Hobby", hobbyFresh)] }

/-- Profile with one attribute and one side value, for the load-failure test. -/
def profileLoadTest : Profile :=
  { baseProfile with
    attributes := [("Force", { name := "Force", base_rank := 4, rank := 0,
                               invariant := false })]
    values := [("PF", { base_rank := 0, rank := 0 })]
    powers := [("Aura", { name := "Aura", cost := "1 PP", base_rank := 0,
                          rank := 0, invariant := true })] }

/-- Archive whose side-value section names a missing entry after a valid
attribute section. -/
def archiveBadValue : Archive :=
  { name := "belial.zip"
    attributes := [{ name := "Force", rank := 2 }]
    values := [{ name := "PF", rank := 1 }, { name := "Nope", rank := 1 }]
    primary_skills := []
    secondary_skills := []
    exotic_skills := []
    powers := []
    table := [] }

/-- Archive whose powers section redefines the existing `Aura` power. -/
def archivePowerCollide : Archive :=
  { name := "belial.zip"
    attributes := []
    values := []
    primary_skills := []
    secondary_skills := []
    exotic_skills := []
    powers := [{ name := "Aura", rank := 1, cost := "1 PP", invariant := "True" }]
    table := [] }

/-- Archetype archive with empty sections and a one-row power table. -/
def archiveArchetype : Archive :=
  { name := "reaper.zip"
    attributes := []
    values := []
    primary_skills := []
    secondary_skills := []
    exotic_skills := []
    powers := []
    table := [rowNegativePP] }

/-- Non-specific primary skill (`CaC` in the catalogue). -/
def cacSkill : Skill := Skill.mk_skill "Corps à corps" none false false false false

/-- Profile whose primary catalogue holds the non-specific `CaC`. -/
def profileCaC : Profile :=
  { baseProfile with primary_skills := [("CaC", cacSkill)] }

/-! ### Association-list lemmas -/

variable {κ α : Type} [DecidableEq κ]

lemma alookup_amodify_self (l : List (κ × α)) (k : κ) (f : α → α) :
    alookup (amodify l k f) k = (alookup l k).map f := by
  induction l with
  | nil => rfl
  | cons kv rest ih =>
      obtain ⟨k', v⟩ := kv
      by_cases h : k' = k
      · subst h
        simp [amodify, alookup]
      · simp [amodify, alookup, h, ih]

lemma alookup_amodify_ne (l : List (κ × α)) (k k' : κ) (f : α → α)
    (h : k' ≠ k) : alookup (amodify l k f) k' = alookup l k' := by
  induction l with
  | nil => rfl
  | cons kv rest ih =>
      obtain ⟨k'', v⟩ := kv
      by_cases h2 : k'' = k
      · subst h2
        simp [amodify, alookup, Ne.symm h, ih]
      · by_cases h3 : k'' = k'
        · subst h3
          simp [amodify, alookup, h2]
        · simp [amodify, alookup, h2, h3, ih]

lemma akeys_amodify (l : List (κ × α)) (k k' : κ) (f : α → α) :
    akeys (amodify l k f) k' = akeys l k' := by
  by_cases h : k' = k
  · subst h
    simp [akeys, alookup_amodify_self]
  · simp [akeys, alookup_amodify_ne _ _ _ _ h]

lemma alookup_append_of_some (l l' : List (κ × α)) (k : κ) (v : α)
    (h : alookup l k = some v) : alookup (l ++ l') k = some v := by
  induction l with
  | nil => simp [alookup] at h
  | cons kv rest ih =>
      obtain ⟨k', w⟩ := kv
      by_cases h2 : k' = k
      · subst h2
        simp [alookup] at h ⊢
        exact h
      · simp [alookup, h2] at h ⊢
        exact ih h

lemma alookup_append_of_none (l l' : List (κ × α)) (k : κ)
    (h : alookup l k = none) : alookup (l ++ l') k = alookup l' k := by
  induction l with
  | nil => rfl
  | cons kv rest ih =>
      obtain ⟨k', w⟩ := kv
      by_cases h2 : k' = k
      · subst h2
        simp [alookup] at h
      · simp [alookup, h2] at h ⊢
        exact ih h

lemma alookup_ainsert_self (l : List (κ × α)) (k : κ) (v : α) :
    alookup (ainsert l k v) k = some v := by
  unfold ainsert
  by_cases h : akeys l k = true
  · simp [h, alookup_amodify_self]
    unfold akeys at h
    obtain ⟨w, hw⟩ := Option.isSome_iff_exists.mp h
    simp [hw]
  · simp [h]
    have hn : alookup l k = none := by
      unfold akeys at h
      simp [Option.isSome_iff_exists] at h
      cases hv : alookup l k with
      | none => rfl
      | some w => exact absurd hv (h w)
    rw [alookup_append_of_none _ _ _ hn]
    simp [alookup]

lemma alookup_ainsert_ne (l : List (κ × α)) (k k' : κ) (v : α)
    (h : k' ≠ k) : alookup (ainsert l k v) k' = alookup l k' := by
  unfold ainsert
  by_cases h2 : akeys l k = true
  · simp [h2, alookup_amodify_ne _ _ _ _ h]
  · simp [h2]
    cases hv : alookup l k' with
    | none =>
        rw [alookup_append_of_none _ _ _ hv]
        simp [alookup, Ne.symm h]
    | some w => exact alookup_append_of_some _ _ _ _ hv

/-! ### Claim C1: the specialization rank invariant -/

lemma applyRankOp_invariant (s : Skill) (op : RankOp)
    (h1 : s.specialization.isSome = true)
    (h2 : s.full_rank ≤ s.spec_full_rank) :
    (applyRankOp s op).specialization.isSome = true ∧
      (applyRankOp s op).full_rank ≤ (applyRankOp s op).spec_full_rank := by
  obtain ⟨sp, hsp⟩ := Option.isSome_iff_exists.mp h1
  rcases s with ⟨nm, br, rk, inv, acq, gov, vars, spec⟩
  change spec = some sp at hsp
  subst hsp
  simp only [Skill.full_rank, Skill.spec_full_rank, SpecSkill.full_rank] at h2
  cases op <;>
    simp only [applyRankOp, Skill.increment_rank, Skill.decrement_rank,
      Skill.spec_increment_rank, Skill.spec_decrement_rank, Skill.full_rank,
      Skill.spec_full_rank, SpecSkill.full_rank] <;>
    (try split_ifs) <;>
    simp_all <;>
    (try omega)

lemma runRankOps_invariant (ops : List RankOp) (s : Skill)
    (h1 : s.specialization.isSome = true)
    (h2 : s.full_rank ≤ s.spec_full_rank) :
    (runRankOps s ops).specialization.isSome = true ∧
      (runRankOps s ops).full_rank ≤ (runRankOps s ops).spec_full_rank := by
  induction ops generalizing s with
  | nil => exact ⟨h1, h2⟩
  | cons op rest ih =>
      obtain ⟨h1', h2'⟩ := applyRankOp_invariant s op h1 h2
      exact ih (applyRankOp s op) h1' h2'

/-- C1: for every skill that has a specialization, after any sequence of
`increment_rank` and `decrement_rank` calls on the skill and on its
specialization, starting from the freshly constructed state (both ranks and
base ranks 0), `specialization.full_rank >= skill.full_rank` holds: the
owning skill only increments while the specialization's full rank is strictly
greater than its own, and the specialization only decrements while it remains
strictly greater than its master's. -/
theorem C1_specialization_rank_invariant (invariant : Bool) (ops : List RankOp) :
    (runRankOps (freshSpecificSkill invariant) ops).full_rank ≤
      (runRankOps (freshSpecificSkill invariant) ops).spec_full_rank := by
  refine (runRankOps_invariant ops (freshSpecificSkill invariant) ?_ ?_).2
  · rfl
  · simp [freshSpecificSkill, Skill.mk_skill, Skill.full_rank,
      Skill.spec_full_rank, SpecSkill.full_rank]

/-! ### Claim C8: ranks stay nonnegative -/

lemma applyAttrOp_nonneg (a : Attribute) (op : AttrOp) (h : 0 ≤ a.rank)
    (hstep : ∀ step : Int, op = .incBy step → 0 ≤ step) :
    0 ≤ (applyAttrOp a op).rank := by
  rcases a with ⟨nm, br, rk, inv⟩
  cases op with
  | inc =>
      simp only [applyAttrOp, Attribute.increment_rank]
      split_ifs <;> simp_all <;> omega
  | dec =>
      simp only [applyAttrOp, Attribute.decrement_rank]
      split_ifs <;> simp_all <;> omega
  | incBy step =>
      have hs := hstep step rfl
      simp only [applyAttrOp, Attribute.increase_rank]
      split_ifs <;> simp_all <;> omega

lemma runAttrOps_nonneg (ops : List AttrOp) (a : Attribute) (h : 0 ≤ a.rank)
    (hstep : ∀ step : Int, AttrOp.incBy step ∈ ops → 0 ≤ step) :
    0 ≤ (runAttrOps a ops).rank := by
  induction ops generalizing a with
  | nil => exact h
  | cons op rest ih =>
      exact ih (applyAttrOp a op)
        (applyAttrOp_nonneg a op h (fun step he => hstep step (by simp [he])))
        (fun step hm => hstep step (by simp [hm]))

lemma applySkillOp_nonneg (s : Skill) (op : SkillOp) (h1 : 0 ≤ s.rank)
    (h2 : 0 ≤ s.spec_rank)
    (hstep : ∀ step : Int, op = .m_incBy step ∨ op = .s_incBy step → 0 ≤ step) :
    0 ≤ (applySkillOp s op).rank ∧ 0 ≤ (applySkillOp s op).spec_rank := by
  rcases s with ⟨nm, br, rk, inv, acq, gov, vars, spec⟩
  cases op with
  | m_inc =>
      cases spec <;>
        simp_all only [applySkillOp, Skill.increment_rank, Skill.spec_rank] <;>
        split_ifs <;> simp_all <;> omega
  | m_dec =>
      cases spec <;>
        simp_all only [applySkillOp, Skill.decrement_rank, Skill.spec_rank] <;>
        split_ifs <;> simp_all <;> omega
  | m_incBy step =>
      have hs := hstep step (Or.inl rfl)
      cases spec <;>
        simp_all only [applySkillOp, Skill.increase_rank, Skill.spec_rank] <;>
        split_ifs <;> simp_all <;> omega
  | s_inc =>
      cases spec <;>
        simp_all [applySkillOp, Skill.spec_increment_rank, Skill.spec_rank] <;>
        (try omega)
  | s_dec =>
      cases spec with
      | none =>
          simp_all [applySkillOp, Skill.spec_decrement_rank, Skill.spec_rank]
      | some sp =>
          simp_all only [applySkillOp, Skill.spec_decrement_rank, Skill.spec_rank]
          split_ifs <;> simp_all <;> (try omega)
  | s_incBy step =>
      have hs := hstep step (Or.inr rfl)
      cases spec <;>
        simp_all [applySkillOp, Skill.spec_increase_rank, Skill.spec_rank] <;>
        (try omega)

lemma runSkillOps_nonneg (ops : List SkillOp) (s : Skill) (h1 : 0 ≤ s.rank)
    (h2 : 0 ≤ s.spec_rank)
    (hstep : ∀ step : Int,
      SkillOp.m_incBy step ∈ ops ∨ SkillOp.s_incBy step ∈ ops → 0 ≤ step) :
    0 ≤ (runSkillOps s ops).rank ∧ 0 ≤ (runSkillOps s ops).spec_rank := by
  induction ops generalizing s with
  | nil => exact ⟨h1, h2⟩
  | cons op rest ih =>
      obtain ⟨h1', h2'⟩ := applySkillOp_nonneg s op h1 h2
        (fun step he => hstep step (by rcases he with he | he <;> simp [he]))
      exact ih (applySkillOp s op) h1' h2'
        (fun step hm => hstep step (by rcases hm with hm | hm <;> simp [hm]))

/-- C8 counterexample: the claim quantifies over sequences that include
`increase_rank`, whose step comes straight from a CSV `Rank` cell and may be
negative; a single `increase_rank(-1)` from the fresh state drives the rank
below 0, so the claim as stated is false. -/
theorem C8_counterexample_negative_step :
    (runAttrOps { name := "Force", base_rank := 0, rank := 0, invariant := false }
        [AttrOp.incBy (-1)]).rank < 0 := by
  decide

/-- C8 amended: starting from any state with nonnegative ranks (in particular
the fresh rank-0 state), no sequence of `increment_rank`, `decrement_rank`
and `increase_rank` calls whose bulk steps are nonnegative (profile merges
with nonnegative `Rank` cells) drives an attribute's or a skill's rank below
0; and `decrement_rank` is a no-op at rank 0. -/
theorem C8_amended_ranks_never_negative :
    (∀ (a : Attribute) (ops : List AttrOp), 0 ≤ a.rank →
        (∀ step : Int, AttrOp.incBy step ∈ ops → 0 ≤ step) →
        0 ≤ (runAttrOps a ops).rank)
    ∧ (∀ (s : Skill) (ops : List SkillOp), 0 ≤ s.rank → 0 ≤ s.spec_rank →
        (∀ step : Int,
          SkillOp.m_incBy step ∈ ops ∨ SkillOp.s_incBy step ∈ ops → 0 ≤ step) →
        0 ≤ (runSkillOps s ops).rank ∧ 0 ≤ (runSkillOps s ops).spec_rank)
    ∧ (∀ a : Attribute, a.rank = 0 → a.decrement_rank = a)
    ∧ (∀ s : Skill, s.rank = 0 → s.decrement_rank = s) := by
  refine ⟨?a1, ?sk, ?ad, ?sd⟩
  case a1 => exact fun a ops h hstep => runAttrOps_nonneg ops a h hstep
  case sk => exact fun s ops h1 h2 hstep => runSkillOps_nonneg ops s h1 h2 hstep
  case ad =>
      intro a h
      simp [Attribute.decrement_rank, h]
  case sd =>
      intro s h
      simp [Skill.decrement_rank, h]

/-- C8 witness: a concrete mixed sequence from the fresh state keeps the
ranks nonnegative, and a rank-0 attribute and skill ignore `decrement_rank`. -/
theorem C8_amended_witness :
    0 ≤ (runAttrOps { name := "Force", base_rank := 0, rank := 0, invariant := false }
        [AttrOp.inc, AttrOp.dec, AttrOp.dec, AttrOp.incBy 3]).rank :=
  C8_amended_ranks_never_negative.1
    { name := "Force", base_rank := 0, rank := 0, invariant := false }
    [AttrOp.inc, AttrOp.dec, AttrOp.dec, AttrOp.incBy 3]
    (by decide)
    (by
      intro step hm
      simp only [List.mem_cons, List.not_mem_nil, or_false] at hm
      rcases hm with h | h | h | h
      · cases h
      · cases h
      · cases h
      · injection h with h
        omega)

/-! ### Claim C3: compute_base_rank -/

lemma half_trunc_eq_fdiv (x : Int) (h : 0 ≤ x) : half_trunc x = Int.fdiv x 2 := by
  obtain ⟨m, rfl⟩ := Int.eq_ofNat_of_zero_le h
  cases m with
  | zero => rfl
  | succ k => rfl

/-- C3 counterexample: `compute_base_rank` derives the base rank from the
governing attribute even on an invariant skill (the governed branch carries
no invariant check), so an invariant skill governed by a full-rank-4
attribute ends with base rank 2, not 0, refuting the claim that every
invariant skill keeps base rank 0. -/
theorem C3_counterexample_governed_invariant :
    invariantGovernedSkill.invariant = true ∧
      (invariantGovernedSkill.compute_base_rank).base_rank = 2 ∧
      ((2 : Int) ≠ 0) := by
  decide

/-- C3 amended: `compute_base_rank` sets `base_rank` to
`floor(governing.full_rank / 2)` whenever a governing attribute is present
(its full rank taken nonnegative), sets it to the flat default 2 when the
skill is ungoverned and non-invariant, leaves it unchanged for ungoverned
invariant skills (a freshly constructed one therefore keeps 0), and always
cascades the same recomputation into an existing specialization, which is
never invariant. -/
theorem C3_amended_compute_base_rank (s : Skill) :
    (∀ g : Attribute, s.governing_attribute = some g → 0 ≤ g.full_rank →
        (s.compute_base_rank).base_rank = Int.fdiv g.full_rank 2)
    ∧ (s.governing_attribute = none → s.invariant = false →
        (s.compute_base_rank).base_rank = 2)
    ∧ (s.governing_attribute = none → s.invariant = true →
        (s.compute_base_rank).base_rank = s.base_rank)
    ∧ (∀ (sp : SpecSkill) (g : Attribute), s.specialization = some sp →
        s.governing_attribute = some g → 0 ≤ g.full_rank →
        (s.compute_base_rank).specialization =
          some { sp with base_rank := Int.fdiv g.full_rank 2 })
    ∧ (∀ sp : SpecSkill, s.specialization = some sp →
        s.governing_attribute = none →
        (s.compute_base_rank).specialization =
          some { sp with base_rank := 2 }) := by
  refine ⟨?g, ?u, ?i, ?cg, ?cu⟩
  case g =>
      intro g hg hnn
      simp [Skill.compute_base_rank, hg, half_trunc_eq_fdiv _ hnn]
  case u =>
      intro hg hinv
      simp [Skill.compute_base_rank, hg, hinv]
  case i =>
      intro hg hinv
      simp [Skill.compute_base_rank, hg, hinv]
  case cg =>
      intro sp g hsp hg hnn
      simp [Skill.compute_base_rank, hsp, hg, half_trunc_eq_fdiv _ hnn]
  case cu =>
      intro sp hsp hg
      simp [Skill.compute_base_rank, hsp, hg]

/-! ### Claim C4: update_values -/

lemma alookup_amodify (l : List (κ × α)) (k k' : κ) (f : α → α) :
    alookup (amodify l k f) k' =
      if k' = k then (alookup l k).map f else alookup l k' := by
  by_cases h : k' = k
  · subst h
    simp [alookup_amodify_self]
  · simp [h, alookup_amodify_ne _ _ _ _ h]

/-- C4: after `update_values`, `PF.base_rank = floor(Force.real + Volonte.real)`
and `PP.base_rank = floor(Foi.real + Volonte.real)`; with
`wound = Force.real + (2 for a Demon, 3 for an Angel)`, the side values get
`BL = floor(wound)`, `BG = floor(2*wound)`, `BF = floor(3*wound)`,
`MS = floor(4*wound)`.  Stated in half-units: `w2 = 2*wound`, so
`floor(wound) = Int.fdiv w2 2`, `floor(2*wound) = w2`,
`floor(3*wound) = Int.fdiv (3*w2) 2` and `floor(4*wound) = 2*w2`. -/
theorem C4_update_values_side_values (p : Profile) (force vol foi : Attribute)
    (p' : Profile)
    (hf : alookup p.attributes "Force" = some force)
    (hv : alookup p.attributes "Volonte" = some vol)
    (hw : alookup p.attributes "Foi" = some foi)
    (hnf : 0 ≤ force.full_rank) (hnv : 0 ≤ vol.full_rank)
    (hnw : 0 ≤ foi.full_rank)
    (hupd : update_values p = some p') :
    ((alookup p.values "PF").isSome →
      (alookup p'.values "PF").map Value.base_rank =
        some (Int.fdiv (force.full_rank + vol.full_rank) 2))
    ∧ ((alookup p.values "PP").isSome →
      (alookup p'.values "PP").map Value.base_rank =
        some (Int.fdiv (foi.full_rank + vol.full_rank) 2))
    ∧ (∀ w2 : Int,
        w2 = force.full_rank +
          (if p.nature = "Demon" then 4 else if p.nature = "Angel" then 6 else 0) →
        ((alookup p.values "BL").isSome →
          (alookup p'.values "BL").map Value.base_rank = some (Int.fdiv w2 2))
        ∧ ((alookup p.values "BG").isSome →
          (alookup p'.values "BG").map Value.base_rank = some w2)
        ∧ ((alookup p.values "BF").isSome →
          (alookup p'.values "BF").map Value.base_rank =
            some (Int.fdiv (3 * w2) 2))
        ∧ ((alookup p.values "MS").isSome →
          (alookup p'.values "MS").map Value.base_rank = some (2 * w2))) := by
  simp only [update_values, hf, hv, hw, Option.some.injEq] at hupd
  subst hupd
  refine ⟨?pf, ?pp, ?wounds⟩
  case pf =>
      intro hsome
      obtain ⟨v, hv'⟩ := Option.isSome_iff_exists.mp hsome
      simp [alookup_amodify, hv', Value.set_base_rank,
        half_trunc_eq_fdiv (force.full_rank + vol.full_rank) (by omega)]
  case pp =>
      intro hsome
      obtain ⟨v, hv'⟩ := Option.isSome_iff_exists.mp hsome
      simp [alookup_amodify, hv', Value.set_base_rank,
        half_trunc_eq_fdiv (foi.full_rank + vol.full_rank) (by omega)]
  case wounds =>
      intro w2 hw2
      subst hw2
      have hwnn : 0 ≤ force.full_rank +
          (if p.nature = "Demon" then 4 else if p.nature = "Angel" then 6 else 0) := by
        split_ifs <;> omega
      refine ⟨?bl, ?bg, ?bf, ?ms⟩
      case bl =>
          intro hsome
          obtain ⟨v, hv'⟩ := Option.isSome_iff_exists.mp hsome
          simp [alookup_amodify, hv', Value.set_base_rank,
            half_trunc_eq_fdiv _ hwnn]
      case bg =>
          intro hsome
          obtain ⟨v, hv'⟩ := Option.isSome_iff_exists.mp hsome
          simp [alookup_amodify, hv', Value.set_base_rank]
      case bf =>
          intro hsome
          obtain ⟨v, hv'⟩ := Option.isSome_iff_exists.mp hsome
          simp [alookup_amodify, hv', Value.set_base_rank,
            half_trunc_eq_fdiv _ (show (0:Int) ≤ 3 *
              (force.full_rank + (if p.nature = "Demon" then 4
                else if p.nature = "Angel" then 6 else 0)) by omega)]
      case ms =>
          intro hsome
          obtain ⟨v, hv'⟩ := Option.isSome_iff_exists.mp hsome
          simp [alookup_amodify, hv', Value.set_base_rank, mul_comm]

/-- C4 witness: Demon with Force full rank 6 (`real_rank = 3`), Volonté and
Foi full rank 4: `wound = 5`, so BL=5, BG=10, BF=15, MS=20, PF=5, PP=4. -/
theorem C4_update_values_witness :
    ((alookup profileDemonForce3Updated.values "BL").map Value.base_rank = some 5)
    ∧ ((alookup profileDemonForce3Updated.values "BG").map Value.base_rank = some 10)
    ∧ ((alookup profileDemonForce3Updated.values "BF").map Value.base_rank = some 15)
    ∧ ((alookup profileDemonForce3Updated.values "MS").map Value.base_rank = some 20) := by
  have h := C4_update_values_side_values profileDemonForce3
    { name := "Force", base_rank := 6, rank := 0, invariant := false }
    { name := "Volonté", base_rank := 4, rank := 0, invariant := false }
    { name := "Foi", base_rank := 4, rank := 0, invariant := false }
    profileDemonForce3Updated rfl rfl rfl (by decide) (by decide) (by decide)
    (by decide)
  obtain ⟨hbl, hbg, hbf, hms⟩ := h.2.2 10 (by decide)
  exact ⟨hbl (by decide), hbg (by decide), hbf (by decide), hms (by decide)⟩

/-! ### Claim C5: secondary-skills merge -/

/-- C5 counterexample: `Hobby` is multiple and non-invariant but already holds
the variety `Chasse`; the row `Hobby_Peche` then appends nothing
(`add_variety` ignores a second variety on a non-invariant multiple skill), so
the claim that such a row always appends the suffix as a new variety is
false. -/
theorem C5_counterexample_existing_variety :
    (alookup ((load_secondary_skills profileHobbyOne
        [{ name := "Hobby_Peche", rank := 3 }]).1).secondary_skills
          "Hobby").map Skill.varieties = some (some ["Chasse"]) ∧
      ¬ ("Peche" ∈ (["Chasse"] : List String)) := by
  decide

/-- C5 amended: a row `<skill>_<suffix>` whose base skill exists, is multiple,
is non-invariant and holds no variety yet appends the suffix as its single
variety and increases the skill's rank by the row's rank (for `Hobby_Peche`
on a variety-free `Hobby`, the varieties become exactly `["Peche"]`); a
non-invariant multiple skill that already holds a variety keeps its varieties
unchanged while its rank still increases; an invariant multiple skill gains a
not-yet-registered suffix as a variety but no rank; a row whose base name is
not an existing skill creates a new acquired secondary skill under the full
row name with the row's rank; a suffix row whose base skill is neither
specific nor multiple is ignored with a non-fatal warning. -/
theorem C5_amended_secondary_merge (m : List (String × Skill))
    (ws : List String) (r : Row) (base suffix : String) (sk : Skill)
    (hparts : pySplitChar '_' r.name = [base, suffix])
    (hfull : akeys m r.name = false) :
    (alookup m base = some sk → sk.specialization = none →
      sk.varieties = some [] → sk.invariant = false →
      (alookup (secStep (m, ws) r).1 base).map Skill.varieties =
          some (some [suffix]) ∧
        (alookup (secStep (m, ws) r).1 base).map Skill.rank =
          some (sk.rank + r.rank))
    ∧ (∀ vs : List String, alookup m base = some sk →
        sk.specialization = none → sk.varieties = some vs → vs ≠ [] →
        sk.invariant = false →
        (alookup (secStep (m, ws) r).1 base).map Skill.varieties =
            some (some vs) ∧
          (alookup (secStep (m, ws) r).1 base).map Skill.rank =
            some (sk.rank + r.rank))
    ∧ (∀ vs : List String, alookup m base = some sk →
        sk.specialization = none → sk.varieties = some vs →
        suffix ∉ vs → sk.invariant = true →
        (alookup (secStep (m, ws) r).1 base).map Skill.varieties =
            some (some (vs ++ [suffix])) ∧
          (alookup (secStep (m, ws) r).1 base).map Skill.rank = some sk.rank)
    ∧ (alookup m base = some sk → sk.is_specific = false →
        sk.is_multiple = false →
        secStep (m, ws) r =
          (m, ws ++ ["Non specific nor multiple skill; inputspecialization or variety is ignored."]))
    ∧ (∀ (m' : List (String × Skill)) (ws' : List String) (r' : Row),
        akeys m' r'.name = false →
        alookup m' (pyAt (pySplitChar '_' r'.name) 0) = none →
        alookup (secStep (m', ws') r').1 r'.name =
          some ((Skill.mk_skill r'.name none false false false true).increase_rank
            r'.rank)) := by
  have h0 : pyAt [base, suffix] 0 = base := rfl
  have h1 : pyAt [base, suffix] 1 = suffix := rfl
  refine ⟨?variety, ?full_slot, ?invar, ?warn, ?create⟩
  case variety =>
      intro hsk hspec hvars hinv
      have hm : sk.is_multiple = true := by
        simp [Skill.is_multiple, hvars]
      have hs : sk.is_specific = false := by
        simp [Skill.is_specific, hspec]
      simp only [secStep, hfull, hparts, Bool.false_eq_true, if_false,
        h0, h1, hsk, hs, hm, if_true]
      rw [alookup_amodify_self, hsk]
      simp [Skill.add_variety, hvars, hinv, Skill.increase_rank]
  case full_slot =>
      intro vs hsk hspec hvars hne hinv
      have hm : sk.is_multiple = true := by
        simp [Skill.is_multiple, hvars]
      have hs : sk.is_specific = false := by
        simp [Skill.is_specific, hspec]
      have hlen : 1 ≤ vs.length := by
        cases vs with
        | nil => exact absurd rfl hne
        | cons x xs => simp
      simp only [secStep, hfull, hparts, Bool.false_eq_true, if_false,
        h0, h1, hsk, hs, hm, if_true]
      rw [alookup_amodify_self, hsk]
      simp [Skill.add_variety, hvars, hinv, hlen, Skill.increase_rank]
  case invar =>
      intro vs hsk hspec hvars hnotin hinv
      have hm : sk.is_multiple = true := by
        simp [Skill.is_multiple, hvars]
      have hs : sk.is_specific = false := by
        simp [Skill.is_specific, hspec]
      simp only [secStep, hfull, hparts, Bool.false_eq_true, if_false,
        h0, h1, hsk, hs, hm, if_true]
      rw [alookup_amodify_self, hsk]
      simp [Skill.add_variety, hvars, hinv, hnotin, Skill.increase_rank]
  case warn =>
      intro hsk hs hm
      simp only [secStep, hfull, hparts, Bool.false_eq_true, if_false,
        h0, hsk, hs, hm]
  case create =>
      intro m' ws' r' hfull' hbase'
      simp only [secStep, hfull', Bool.false_eq_true, if_false, hbase']
      rw [alookup_amodify_self, alookup_ainsert_self]
      rfl

/-- C5 witness: merging the row `Hobby_Peche` (rank 3) while `Hobby` is
multiple with no varieties yields `varieties = ["Peche"]` and rank 3. -/
theorem C5_amended_witness :
    (alookup (secStep (profileHobbyFresh.secondary_skills, []) ⟨"Hobby_Peche", 3⟩).1
        "Hobby").map Skill.varieties = some (some ["Peche"]) ∧
      (alookup (secStep (profileHobbyFresh.secondary_skills, []) ⟨"Hobby_Peche", 3⟩).1
        "Hobby").map Skill.rank = some (0 + 3) :=
  (C5_amended_secondary_merge profileHobbyFresh.secondary_skills []
      ⟨"Hobby_Peche", 3⟩ "Hobby" "Peche" hobbyFresh (by decide) (by decide)).1
    (by decide) (by decide) (by decide) (by decide)

/-! ### Claim C2: collision terminates the draw -/

lemma drawLoop_succ (entries : List (Int × Face)) (rolls : Nat → Nat) (k : Nat)
    (p : Profile) (n : Nat) :
    drawLoop entries rolls k p (n + 1) =
      match entries.get? (rolls k % entries.length) with
      | none => (p, some (.indexError "empty table"))
      | some e =>
          if faceCollides p e.2 then (p, none)
          else
            match alookup p.values "PP" with
            | none => (p, some (.keyError "PP"))
            | some _ => drawLoop entries rolls (k + 1) (commitFace p e.2) n := by
  rfl

/-- C2: when the face sampled by the current loop iteration holds a candidate
power already present on the profile, the whole drawing process stops at once
with the profile exactly as it was at that point and no error; in particular
a first-roll collision makes `draw_from_table(2)` return with 0 successes,
the PP pool unchanged and no new powers. -/
theorem C2_collision_terminates_draw (p : Profile) (entries : List (Int × Face))
    (rolls : Nat → Nat) (e : Int × Face)
    (hpt : p.power_table = some entries)
    (hget : entries.get? (rolls 0 % entries.length) = some e)
    (hcol : faceCollides p e.2 = true) :
    draw_from_table p rolls 2 = (p, none)
    ∧ (∀ (q : Profile) (k n : Nat) (f : Int × Face),
        entries.get? (rolls k % entries.length) = some f →
        faceCollides q f.2 = true →
        drawLoop entries rolls k q (n + 1) = (q, none)) := by
  have hgen : ∀ (q : Profile) (k n : Nat) (f : Int × Face),
      entries.get? (rolls k % entries.length) = some f →
      faceCollides q f.2 = true →
      drawLoop entries rolls k q (n + 1) = (q, none) := by
    intro q k n f hg hc
    rw [drawLoop_succ, hg]
    simp [hc]
  refine ⟨?_, hgen⟩
  simp only [draw_from_table, hpt]
  exact hgen p 0 1 e hget hcol

/-- C2 witness: a profile owning the power `X`, drawing from a table whose
single face offers `X`, returns unchanged from `draw(2)` without error. -/
theorem C2_collision_witness :
    draw_from_table profileCollide (fun _ => 0) 2 = (profileCollide, none) :=
  (C2_collision_terminates_draw profileCollide [(1, ([("X", descFlat)], 3))]
      (fun _ => 0) (1, ([("X", descFlat)], 3)) rfl rfl (by decide)).1

/-! ### Claim C9: power-table generation requires a superior -/

/-- C9: generating a power table while the profile's superior is still null
raises an unguarded `AttributeError` for any table with at least one row
(every row case-normalizes the superior name to look it up in the bonus map),
so an archetype profile can only be loaded once a superior has been set: an
archetype load on a superior-less profile fails even when every other section
is empty. -/
theorem C9_power_table_requires_superior :
    (∀ (r : GenRow) (rest : List GenRow),
        generate_power_table none (r :: rest) =
          ([], some (.attributeError "NoneType object has no attribute title")))
    ∧ (∀ (p : Profile) (a : Archive) (r : GenRow) (rest : List GenRow),
        p.superior = none → p.nature = "Demon" → a.attributes = [] →
        a.values = [] → a.primary_skills = [] → a.secondary_skills = [] →
        a.exotic_skills = [] → a.powers = [] → a.table = r :: rest →
        (load_profile p a true).2 =
          some (.attributeError "NoneType object has no attribute title")) := by
  constructor
  · intro r rest
    rfl
  · intro p a r rest hsup hnat ha hv hp hs he hpw ht
    simp only [load_profile, load_attributes, load_side_values,
      load_primary_skills, load_secondary_skills, load_exotic_skills,
      load_powers, runRows, ha, hv, hp, hs, he, hpw, ht, hnat, hsup,
      generate_power_table, genTableGo, List.foldl_nil]
    have hd : pyUpper "Demon" = "DEMON" := by decide
    simp [hd]

/-- C9 witness: an archetype load of a one-row table on the fresh
superior-less Demon profile raises the `AttributeError`. -/
theorem C9_witness :
    (load_profile baseProfile archiveArchetype true).2 =
      some (.attributeError "NoneType object has no attribute title") :=
  C9_power_table_requires_superior.2 baseProfile archiveArchetype
    rowNegativePP [] rfl rfl rfl rfl rfl rfl rfl rfl rfl

/-! ### Claim C10: `_spe` rows on non-specific primary skills -/

/-- C10: during a primary-skills merge, a row `<skill>_spe` whose base skill
exists but is not specific does not hit the `KeyError` lookup path:
`get_specialization` warns and returns null, which is then dereferenced for
`increase_rank`, raising an unguarded `AttributeError`; the fatal `KeyError`
path only covers rows whose base name is absent from the catalogue. -/
theorem C10_spe_row_on_nonspecific_skill (p : Profile) (r : Row) (sk : Skill)
    (hfull : akeys p.primary_skills r.name = false)
    (hbase : alookup p.primary_skills (pyAt (pySplitChar '_' r.name) 0) = some sk)
    (hspe : pyAt (pySplitChar '_' r.name) 1 = "spe")
    (hns : sk.specialization = none) :
    load_primary_skills p [r] =
      (p, some (.attributeError "NoneType object has no attribute increase_rank"))
    ∧ (∀ (q : Profile) (r' : Row),
        akeys q.primary_skills r'.name = false →
        alookup q.primary_skills (pyAt (pySplitChar '_' r'.name) 0) = none →
        load_primary_skills q [r'] =
          (q, some (.keyError ("Skill " ++ r'.name ++ " not found.")))) := by
  constructor
  · simp only [load_primary_skills, runRows, primStep, hfull,
      Bool.false_eq_true, if_false, hbase, hspe, hns, if_true]
  · intro q r' hf' hb'
    simp only [load_primary_skills, runRows, primStep, hf',
      Bool.false_eq_true, if_false, hb']

/-- C10 witness: the row `CaC_spe` against the catalogue where `CaC` exists
and is non-specific produces the `AttributeError`, not the `KeyError`. -/
theorem C10_witness :
    load_primary_skills profileCaC [{ name := "CaC_spe", rank := 2 }] =
      (profileCaC,
        some (.attributeError "NoneType object has no attribute increase_rank")) :=
  (C10_spe_row_on_nonspecific_skill profileCaC { name := "CaC_spe", rank := 2 }
      cacSkill (by decide) (by decide) (by decide) rfl).1

/-! ### Claim C7: load failures propagate without rollback -/

lemma runRows_attr_ok (rows : List Row) (st : List (String × Attribute))
    (h : ∀ r ∈ rows, akeys st r.name = true) :
    runRows attrStep st rows =
      (rows.foldl (fun m r => amodify m r.name (fun a => a.increase_rank r.rank)) st,
        none) := by
  induction rows generalizing st with
  | nil => rfl
  | cons r rest ih =>
      have hr := h r (List.mem_cons_self r rest)
      simp only [runRows, attrStep, hr, if_true, List.foldl_cons]
      exact ih _ (fun r' hm => by
        rw [akeys_amodify]
        exact h r' (List.mem_cons_of_mem _ hm))

lemma runRows_val_fail (good : List Row) (bad : Row) (rest : List Row)
    (st : List (String × Value))
    (hg : ∀ r ∈ good, akeys st r.name = true)
    (hb : akeys st bad.name = false) :
    runRows valueStep st (good ++ bad :: rest) =
      (good.foldl (fun m r => amodify m r.name (fun v => v.set_rank r.rank)) st,
        some (.keyError ("Value " ++ bad.name ++ " not found."))) := by
  induction good generalizing st with
  | nil =>
      simp only [List.nil_append, runRows, valueStep, hb, Bool.false_eq_true,
        if_false, List.foldl_nil]
  | cons r rest' ih =>
      have hr := hg r (List.mem_cons_self r rest')
      simp only [List.cons_append, runRows, valueStep, hr, if_true,
        List.foldl_cons]
      exact ih _
        (fun r' hm => by
          rw [akeys_amodify]
          exact hg r' (List.mem_cons_of_mem _ hm))
        (by rw [akeys_amodify]; exact hb)

lemma alookup_amodify_none (l : List (κ × α)) (k k' : κ) (f : α → α)
    (h : alookup l k' = none) : alookup (amodify l k f) k' = none := by
  rw [alookup_amodify]
  split_ifs with he
  · subst he
    rw [h]
    rfl
  · exact h

lemma akeys_ainsert_true (l : List (κ × α)) (k k' : κ) (v : α)
    (h : akeys l k' = true) : akeys (ainsert l k v) k' = true := by
  by_cases he : k' = k
  · subst he
    unfold akeys
    rw [alookup_ainsert_self]
    rfl
  · unfold akeys at h ⊢
    rw [alookup_ainsert_ne _ _ _ _ he]
    exact h

lemma akeys_ainsert_false (l : List (κ × α)) (k k' : κ) (v : α)
    (h1 : akeys l k' = false) (h2 : k' ≠ k) :
    akeys (ainsert l k v) k' = false := by
  unfold akeys at h1 ⊢
  rw [alookup_ainsert_ne _ _ _ _ h2]
  exact h1

lemma runRows_attr_fail (good : List Row) (bad : Row) (rest : List Row)
    (st : List (String × Attribute))
    (hg : ∀ r ∈ good, akeys st r.name = true)
    (hb : akeys st bad.name = false) :
    runRows attrStep st (good ++ bad :: rest) =
      (good.foldl (fun m r => amodify m r.name (fun a => a.increase_rank r.rank)) st,
        some (.keyError ("Attribute " ++ bad.name ++ " not found."))) := by
  induction good generalizing st with
  | nil =>
      simp only [List.nil_append, runRows, attrStep, hb, Bool.false_eq_true,
        if_false, List.foldl_nil]
  | cons r rest' ih =>
      have hr := hg r (List.mem_cons_self r rest')
      simp only [List.cons_append, runRows, attrStep, hr, if_true,
        List.foldl_cons]
      exact ih _
        (fun r' hm => by
          rw [akeys_amodify]
          exact hg r' (List.mem_cons_of_mem _ hm))
        (by rw [akeys_amodify]; exact hb)

lemma runRows_prim_fail (good : List Row) (bad : Row) (rest : List Row)
    (st : List (String × Skill))
    (hg : ∀ r ∈ good, akeys st r.name = true)
    (hb1 : akeys st bad.name = false)
    (hb2 : alookup st (pyAt (pySplitChar '_' bad.name) 0) = none) :
    runRows primStep st (good ++ bad :: rest) =
      (good.foldl (fun m r => amodify m r.name (fun s => s.increase_rank r.rank)) st,
        some (.keyError ("Skill " ++ bad.name ++ " not found."))) := by
  induction good generalizing st with
  | nil =>
      simp only [List.nil_append, runRows, primStep, hb1, Bool.false_eq_true,
        if_false, hb2, List.foldl_nil]
  | cons r rest' ih =>
      have hr := hg r (List.mem_cons_self r rest')
      simp only [List.cons_append, runRows, primStep, hr, if_true,
        List.foldl_cons]
      exact ih _
        (fun r' hm => by
          rw [akeys_amodify]
          exact hg r' (List.mem_cons_of_mem _ hm))
        (by rw [akeys_amodify]; exact hb1)
        (alookup_amodify_none _ _ _ _ hb2)

lemma runRows_exotic_fail (good : List Row) (bad : Row) (rest : List Row)
    (st : List (String × Skill))
    (hg : ∀ r ∈ good, akeys st r.name = true)
    (hb : akeys st bad.name = false) :
    runRows exoticStep st (good ++ bad :: rest) =
      (good.foldl (fun m r => amodify m r.name (fun s => s.increase_rank r.rank)) st,
        some (.keyError ("Skill " ++ bad.name ++ " not found."))) := by
  induction good generalizing st with
  | nil =>
      simp only [List.nil_append, runRows, exoticStep, hb, Bool.false_eq_true,
        if_false, List.foldl_nil]
  | cons r rest' ih =>
      have hr := hg r (List.mem_cons_self r rest')
      simp only [List.cons_append, runRows, exoticStep, hr, if_true,
        List.foldl_cons]
      exact ih _
        (fun r' hm => by
          rw [akeys_amodify]
          exact hg r' (List.mem_cons_of_mem _ hm))
        (by rw [akeys_amodify]; exact hb)

lemma runRows_power_fail (good : List PowerRow) (bad : PowerRow)
    (rest : List PowerRow) (st : List (String × Power))
    (hg : ∀ r ∈ good, akeys st r.name = false)
    (hnd : (good.map PowerRow.name).Nodup)
    (hb : akeys st bad.name = true) :
    runRows powerStep st (good ++ bad :: rest) =
      (good.foldl (fun m r => ainsert m r.name (mkLoadedPower r)) st,
        some (.keyError ("Power " ++ bad.name ++ " already exists."))) := by
  induction good generalizing st with
  | nil =>
      simp only [List.nil_append, runRows, powerStep, hb, if_true,
        List.foldl_nil]
  | cons g gs ih =>
      have hgk := hg g (List.mem_cons_self g gs)
      simp only [List.map_cons, List.nodup_cons] at hnd
      obtain ⟨hnotin, hnd'⟩ := hnd
      simp only [List.cons_append, runRows, powerStep, hgk, Bool.false_eq_true,
        if_false, List.foldl_cons]
      refine ih _ ?_ hnd' ?_
      · intro r hm
        refine akeys_ainsert_false _ _ _ _ (hg r (List.mem_cons_of_mem _ hm)) ?_
        intro he
        exact hnotin (he ▸ List.mem_map_of_mem PowerRow.name hm)
      · exact akeys_ainsert_true _ _ _ _ hb

/-- C7: a schema violation in any loaded section — an attribute, primary-skill,
exotic-skill or side-value row naming a missing entry, or a powers row
redefining an existing name — raises a `KeyError` that propagates out of
`load_profile`, and nothing is rolled back: the sections and the rows of the
failing section merged before the failing row remain applied, and the
sections after the failure are untouched. -/
theorem C7_load_failure_no_rollback (p : Profile) :
    (∀ (a : Archive) (good : List Row) (bad : Row) (rest : List Row),
        a.attributes = good ++ bad :: rest →
        (∀ r ∈ good, akeys p.attributes r.name = true) →
        akeys p.attributes bad.name = false →
        load_profile p a false =
          ({ p with
              attributes := good.foldl
                (fun m r => amodify m r.name (fun x => x.increase_rank r.rank))
                p.attributes },
            some (.keyError ("Attribute " ++ bad.name ++ " not found."))))
    ∧ (∀ (a : Archive) (aRows good : List Row) (bad : Row) (rest : List Row),
        a.attributes = aRows → a.values = good ++ bad :: rest →
        (∀ r ∈ aRows, akeys p.attributes r.name = true) →
        (∀ r ∈ good, akeys p.values r.name = true) →
        akeys p.values bad.name = false →
        load_profile p a false =
          ({ p with
              attributes := aRows.foldl
                (fun m r => amodify m r.name (fun x => x.increase_rank r.rank))
                p.attributes
              values := good.foldl
                (fun m r => amodify m r.name (fun v => v.set_rank r.rank))
                p.values },
            some (.keyError ("Value " ++ bad.name ++ " not found."))))
    ∧ (∀ (a : Archive) (aRows good : List Row) (bad : Row) (rest : List Row),
        a.attributes = aRows → a.values = [] →
        a.primary_skills = good ++ bad :: rest →
        (∀ r ∈ aRows, akeys p.attributes r.name = true) →
        (∀ r ∈ good, akeys p.primary_skills r.name = true) →
        akeys p.primary_skills bad.name = false →
        alookup p.primary_skills (pyAt (pySplitChar '_' bad.name) 0) = none →
        load_profile p a false =
          ({ p with
              attributes := aRows.foldl
                (fun m r => amodify m r.name (fun x => x.increase_rank r.rank))
                p.attributes
              primary_skills := good.foldl
                (fun m r => amodify m r.name (fun s => s.increase_rank r.rank))
                p.primary_skills },
            some (.keyError ("Skill " ++ bad.name ++ " not found."))))
    ∧ (∀ (a : Archive) (aRows good : List Row) (bad : Row) (rest : List Row),
        a.attributes = aRows → a.values = [] → a.primary_skills = [] →
        a.secondary_skills = [] → a.exotic_skills = good ++ bad :: rest →
        (∀ r ∈ aRows, akeys p.attributes r.name = true) →
        (∀ r ∈ good, akeys p.exotic_skills r.name = true) →
        akeys p.exotic_skills bad.name = false →
        load_profile p a false =
          ({ p with
              attributes := aRows.foldl
                (fun m r => amodify m r.name (fun x => x.increase_rank r.rank))
                p.attributes
              exotic_skills := good.foldl
                (fun m r => amodify m r.name (fun s => s.increase_rank r.rank))
                p.exotic_skills },
            some (.keyError ("Skill " ++ bad.name ++ " not found."))))
    ∧ (∀ (a : Archive) (aRows : List Row) (good : List PowerRow)
          (bad : PowerRow) (rest : List PowerRow),
        a.attributes = aRows → a.values = [] → a.primary_skills = [] →
        a.secondary_skills = [] → a.exotic_skills = [] →
        a.powers = good ++ bad :: rest →
        (∀ r ∈ aRows, akeys p.attributes r.name = true) →
        (∀ r ∈ good, akeys p.powers r.name = false) →
        (good.map PowerRow.name).Nodup →
        akeys p.powers bad.name = true →
        load_profile p a false =
          ({ p with
              attributes := aRows.foldl
                (fun m r => amodify m r.name (fun x => x.increase_rank r.rank))
                p.attributes
              powers := good.foldl
                (fun m r => ainsert m r.name (mkLoadedPower r)) p.powers },
            some (.keyError ("Power " ++ bad.name ++ " already exists.")))) := by
  refine ⟨?attr, ?val, ?prim, ?exo, ?pow⟩
  case attr =>
      intro a good bad rest ha hg hb
      simp only [load_profile, load_attributes, ha,
        runRows_attr_fail good bad rest p.attributes hg hb]
  case val =>
      intro a aRows good bad rest ha hv hA hG hB
      simp only [load_profile, load_attributes, load_side_values, ha, hv,
        runRows_attr_ok aRows p.attributes hA,
        runRows_val_fail good bad rest p.values hG hB]
  case prim =>
      intro a aRows good bad rest ha hv hp hA hG hb1 hb2
      simp only [load_profile, load_attributes, load_side_values,
        load_primary_skills, ha, hv, hp, runRows,
        runRows_attr_ok aRows p.attributes hA,
        runRows_prim_fail good bad rest p.primary_skills hG hb1 hb2]
  case exo =>
      intro a aRows good bad rest ha hv hp hs he hA hG hb
      simp only [load_profile, load_attributes, load_side_values,
        load_primary_skills, load_secondary_skills, load_exotic_skills,
        ha, hv, hp, hs, he, runRows, List.foldl_nil,
        runRows_attr_ok aRows p.attributes hA,
        runRows_exotic_fail good bad rest p.exotic_skills hG hb]
  case pow =>
      intro a aRows good bad rest ha hv hp hs he hpw hA hG hnd hb
      simp only [load_profile, load_attributes, load_side_values,
        load_primary_skills, load_secondary_skills, load_exotic_skills,
        load_powers, ha, hv, hp, hs, he, hpw, runRows, List.foldl_nil,
        runRows_attr_ok aRows p.attributes hA,
        runRows_power_fail good bad rest p.powers hG hnd hb]

/-- C7 witness: loading an archive whose attribute section is valid and whose
side-value section hits the missing `Nope` entry after setting `PF` leaves the
merged attribute and the `PF` update applied and reports the `KeyError`;
loading an archive whose powers section redefines the existing `Aura` power
fails with the collision `KeyError` and changes nothing. -/
theorem C7_witness :
    (load_profile profileLoadTest archiveBadValue false =
      ({ profileLoadTest with
          attributes := [("Force", { name := "Force", base_rank := 4, rank := 2,
                                     invariant := false })]
          values := [("PF", { base_rank := 0, rank := 1 })] },
        some (.keyError "Value Nope not found.")))
    ∧ (load_profile profileLoadTest archivePowerCollide false =
        (profileLoadTest, some (.keyError "Power Aura already exists."))) :=
  ⟨(C7_load_failure_no_rollback profileLoadTest).2.1 archiveBadValue
      [{ name := "Force", rank := 2 }] [{ name := "PF", rank := 1 }]
      { name := "Nope", rank := 1 } [] rfl rfl (by decide) (by decide)
      (by decide),
    (C7_load_failure_no_rollback profileLoadTest).2.2.2.2 archivePowerCollide
      [] [] { name := "Aura", rank := 1, cost := "1 PP", invariant := "True" }
      [] rfl rfl rfl rfl rfl rfl (by decide) (by decide) (by decide)
      (by decide)⟩

/-! ### Claim C6: draws never lower the pool, never overwrite a power -/

lemma foldl_ainsert_preserve (cands : List (String × PowerDesc))
    (ps : List (String × Power)) (name : String) (pw : Power)
    (hname : alookup ps name = some pw)
    (hdiff : ∀ kd ∈ cands, kd.1 ≠ name) :
    alookup
      (cands.foldl (fun acc kd => ainsert acc kd.1 (mkDrawnPower kd.1 kd.2)) ps)
      name = some pw := by
  induction cands generalizing ps with
  | nil => exact hname
  | cons c cs ih =>
      simp only [List.foldl_cons]
      refine ih _ ?_ (fun kd hm => hdiff kd (List.mem_cons_of_mem _ hm))
      rw [alookup_ainsert_ne _ _ _ _ (Ne.symm (hdiff c (List.mem_cons_self c cs)))]
      exact hname

lemma foldl_ainsert_mem (cands : List (String × PowerDesc))
    (ps : List (String × Power)) (hnd : (cands.map Prod.fst).Nodup) :
    ∀ kd ∈ cands,
      alookup
        (cands.foldl (fun acc kd => ainsert acc kd.1 (mkDrawnPower kd.1 kd.2)) ps)
        kd.1 = some (mkDrawnPower kd.1 kd.2) := by
  induction cands generalizing ps with
  | nil =>
      intro kd h
      cases h
  | cons c cs ih =>
      intro kd hm
      simp only [List.map_cons, List.nodup_cons] at hnd
      obtain ⟨hnotin, hnd'⟩ := hnd
      rcases List.mem_cons.mp hm with rfl | hm'
      · simp only [List.foldl_cons]
        refine foldl_ainsert_preserve cs _ kd.1 (mkDrawnPower kd.1 kd.2)
          (alookup_ainsert_self ps kd.1 (mkDrawnPower kd.1 kd.2)) ?_
        intro kd' hm' he
        exact hnotin (he ▸ List.mem_map_of_mem Prod.fst hm')
      · simp only [List.foldl_cons]
        exact ih _ hnd' kd hm'

lemma commit_ppRank (p : Profile) (f : Face) :
    ppRank (commitFace p f) = (ppRank p).map (fun rv => rv + f.2) := by
  cases hPP : alookup p.values "PP" with
  | none => simp [ppRank, commitFace, alookup_amodify_self, hPP]
  | some v =>
      simp [ppRank, commitFace, alookup_amodify_self, hPP, Value.increase_rank,
        Face.pp]

lemma commit_preserves_powers (p : Profile) (f : Face)
    (hcol : faceCollides p f = false) (name : String) (pw : Power)
    (hname : alookup p.powers name = some pw) :
    alookup (commitFace p f).powers name = some pw := by
  have habs : ∀ kd ∈ f.1, akeys p.powers kd.1 = false := by
    intro kd hm
    by_contra hx
    have h1 : akeys p.powers kd.1 = true := by
      cases h : akeys p.powers kd.1 with
      | true => rfl
      | false => exact absurd h hx
    have : faceCollides p f = true := by
      simp only [faceCollides, List.any_eq_true]
      exact ⟨kd, hm, h1⟩
    rw [this] at hcol
    cases hcol
  refine foldl_ainsert_preserve f.1 p.powers name pw hname ?_
  intro kd hm he
  have h1 := habs kd hm
  rw [he, akeys, hname] at h1
  cases h1

lemma drawLoop_preserves_powers (entries : List (Int × Face))
    (rolls : Nat → Nat) :
    ∀ (n k : Nat) (p : Profile) (name : String) (pw : Power),
      alookup p.powers name = some pw →
      alookup (drawLoop entries rolls k p n).1.powers name = some pw := by
  intro n
  induction n with
  | zero =>
      intro k p name pw h
      exact h
  | succ m ih =>
      intro k p name pw h
      rw [drawLoop_succ]
      cases hget : entries.get? (rolls k % entries.length) with
      | none => exact h
      | some e =>
          by_cases hcol : faceCollides p e.2 = true
          · simp only [hcol, if_true]
            exact h
          · have hcolf : faceCollides p e.2 = false := by
              cases hc : faceCollides p e.2 with
              | true => exact absurd hc hcol
              | false => rfl
            simp only [hcolf, Bool.false_eq_true, if_false]
            cases hPP : alookup p.values "PP" with
            | none => exact h
            | some v =>
                exact ih (k + 1) (commitFace p e.2) name pw
                  (commit_preserves_powers p e.2 hcolf name pw h)

lemma drawLoop_monotone (entries : List (Int × Face)) (rolls : Nat → Nat)
    (hpp : ∀ e ∈ entries, 0 ≤ e.2.2) :
    ∀ (n k : Nat) (p : Profile) (rv : Int), ppRank p = some rv →
      ∃ rv', ppRank (drawLoop entries rolls k p n).1 = some rv' ∧ rv ≤ rv' := by
  intro n
  induction n with
  | zero =>
      intro k p rv h
      exact ⟨rv, h, le_refl rv⟩
  | succ m ih =>
      intro k p rv hrv
      rw [drawLoop_succ]
      cases hget : entries.get? (rolls k % entries.length) with
      | none => exact ⟨rv, hrv, le_refl rv⟩
      | some e =>
          by_cases hcol : faceCollides p e.2 = true
          · simp only [hcol, if_true]
            exact ⟨rv, hrv, le_refl rv⟩
          · have hcolf : faceCollides p e.2 = false := by
              cases h : faceCollides p e.2 with
              | true => exact absurd h hcol
              | false => rfl
            simp only [hcolf, Bool.false_eq_true, if_false]
            cases hPP : alookup p.values "PP" with
            | none =>
                rw [ppRank, hPP] at hrv
                cases hrv
            | some v =>
                have hc : ppRank (commitFace p e.2) = some (rv + e.2.2) := by
                  rw [commit_ppRank, hrv]
                  rfl
                obtain ⟨rv', h1, h2⟩ := ih (k + 1) (commitFace p e.2) (rv + e.2.2) hc
                have he' : 0 ≤ e.2.2 := hpp e (List.get?_mem hget)
                exact ⟨rv', h1, by omega⟩

/-- C6 counterexample: `generate_power_table` keeps whatever integer the CSV
`pp` cell holds, so a generated table whose row carries `pp = -1` makes a
committed draw lower the PP pool from 0 to -1, refuting the claim for every
generated power table. -/
theorem C6_counterexample_negative_pp :
    generate_power_table (some "Baal") [rowNegativePP] =
      ([(1, ([("X", descRanked)], -1))], none)
    ∧ ppRank profileNegativePP = some 0
    ∧ ppRank (draw_from_table profileNegativePP (fun _ => 0) 1).1 = some (-1)
    ∧ ((-1 : Int) < 0) := by
  decide

/-- C6 amended: for every power table all of whose faces carry a nonnegative
pp award (which `generate_power_table` does not enforce), `draw_from_table(n)`
never leaves the PP pool lower than before the call; independently of the pp
signs it never disturbs an already present power-map binding; and a committed
(non-colliding) attempt adds the face's pp award to the pool and inserts every
candidate power of the face, flat candidates as invariant powers and ranked
candidates with `base_rank = 2 * descriptor`. -/
theorem C6_amended_draw_pool_and_powers :
    (∀ (p : Profile) (rolls : Nat → Nat) (n : Nat),
        (∀ entries, p.power_table = some entries → ∀ e ∈ entries, 0 ≤ e.2.2) →
        ∀ rv, ppRank p = some rv →
          ∃ rv', ppRank (draw_from_table p rolls n).1 = some rv' ∧ rv ≤ rv')
    ∧ (∀ (p : Profile) (rolls : Nat → Nat) (n : Nat) (name : String)
          (pw : Power), alookup p.powers name = some pw →
        alookup (draw_from_table p rolls n).1.powers name = some pw)
    ∧ (∀ (p : Profile) (f : Face), faceCollides p f = false →
        (f.1.map Prod.fst).Nodup →
        ppRank (commitFace p f) = (ppRank p).map (fun rv => rv + f.2)
        ∧ ∀ kd ∈ f.1, alookup (commitFace p f).powers kd.1 =
            some (mkDrawnPower kd.1 kd.2)) := by
  refine ⟨?pool, ?preserve, ?commit⟩
  case pool =>
      intro p rolls n hpp rv hrv
      cases hpt : p.power_table with
      | none =>
          simp only [draw_from_table, hpt]
          exact ⟨rv, hrv, le_refl rv⟩
      | some entries =>
          simp only [draw_from_table, hpt]
          exact drawLoop_monotone entries rolls (hpp entries hpt) n 0 p rv hrv
  case preserve =>
      intro p rolls n name pw h
      cases hpt : p.power_table with
      | none =>
          simp only [draw_from_table, hpt]
          exact h
      | some entries =>
          simp only [draw_from_table, hpt]
          exact drawLoop_preserves_powers entries rolls n 0 p name pw h
  case commit =>
      intro p f hcol hnd
      exact ⟨commit_ppRank p f, foldl_ainsert_mem f.1 p.powers hnd⟩

/-- C6 witness: a two-candidate face (one flat, one ranked) with pp award 1
drawn once on an empty power map keeps the pool at least at its starting
value 0. -/
theorem C6_amended_witness :
    (∃ rv', ppRank (draw_from_table profileDraw (fun _ => 0) 1).1 = some rv' ∧
      (0 : Int) ≤ rv')
    ∧ alookup (draw_from_table profileCollide (fun _ => 0) 2).1.powers "X" =
        some { name := "X", cost := "2 PP", base_rank := 0, rank := 0,
               invariant := true } :=
  ⟨C6_amended_draw_pool_and_powers.1 profileDraw (fun _ => 0) 1
      (by
        intro entries he e hm
        simp only [profileDraw, baseProfile, Option.some.injEq] at he
        subst he
        simp only [List.mem_singleton] at hm
        subst hm
        decide) 0 rfl,
    C6_amended_draw_pool_and_powers.2.1 profileCollide (fun _ => 0) 2 "X"
      { name := "X", cost := "2 PP", base_rank := 0, rank := 0,
        invariant := true } rfl⟩

/-- C3 witness: the governed specific skill with governing full rank 5 gets
base rank `floor(5 / 2) = 2` on itself and on its specialization. -/
theorem C3_amended_witness :
    (governedSkill.compute_base_rank).base_rank = Int.fdiv 5 2 ∧
      (governedSkill.compute_base_rank).specialization =
        some { base_rank := Int.fdiv 5 2, rank := 0, acquired := false } :=
  ⟨(C3_amended_compute_base_rank governedSkill).1
      { name := "Agilite", base_rank := 4, rank := 1, invariant := false }
      rfl (by decide),
    (C3_amended_compute_base_rank governedSkill).2.2.2.1
      { base_rank := 0, rank := 0, acquired := false }
      { name := "Agilite", base_rank := 4, rank := 1, invariant := false }
      rfl rfl (by decide)⟩

end Scox
